import Mathlib

/-
Verification of `convert.py` — a batch tool converting labelme annotation
output into an OCR training dataset (cropped region images plus a
tab-separated label manifest).

The development shallowly embeds the program: file and string primitives
from the Python standard library are modelled as executable Lean
functions over `String` / `List Char`, numeric region coordinates are
rationals (every JSON float is a rational, and the program only compares
them and truncates them to integers), and the effectful pipeline
(`run` and the `__main__` block) is modelled as a pure function from an
environment (directory listings, parsed JSON, image sizes) to the list
of externally visible effects it performs, together with a flag telling
whether the process halted early (`sys.exit` or an uncaught exception).
-/

deriving instance DecidableEq for Except

namespace LabelmeConvert

/-! ## Python string primitives (modelled structurally so the kernel can
evaluate them; Python compares strings by Unicode code point). -/

/-- Lexicographic strict comparison of char lists by code point; this is
how Python compares `str` values. -/
def lexLtCh : List Char → List Char → Bool
  | [], [] => false
  | [], _ :: _ => true
  | _ :: _, [] => false
  | a :: as, b :: bs =>
    if a.toNat < b.toNat then true
    else if a.toNat = b.toNat then lexLtCh as bs
    else false

/-- Python `a < b` on strings. -/
def pyStrLt (a b : String) : Bool := lexLtCh a.toList b.toList

/-- Python `a <= b` on strings (total order, so `a <= b` iff `not (b < a)`). -/
def pyStrLe (a b : String) : Bool := !(lexLtCh b.toList a.toList)

/-- Python `s.startswith(p)`. -/
def pyStartsWith (s p : String) : Bool := p.toList.isPrefixOf s.toList

/-- Python `os.path.splitext`: split a name into root and extension at the
last dot, where dots leading the basename do not begin an extension. -/
def splitext (s : String) : String × String :=
  let cs := s.toList
  let lead := (cs.takeWhile (fun c => c = '.')).length
  let r := (cs.drop lead).reverse.span (fun c => c ≠ '.')
  match r.2 with
  | [] => (s, "")
  | _ :: baseRev => (String.mk (cs.take lead ++ baseRev.reverse), String.mk ('.' :: r.1.reverse))

/-- Python `os.path.join` for the simple relative paths this program builds. -/
def joinPath (a b : String) : String := a ++ "/" ++ b

/-- Python `os.path.basename`. -/
def os_path_basename (p : String) : String :=
  String.mk ((p.toList.reverse.takeWhile (fun c => c ≠ '/')).reverse)

/-- Python format spec `{n:03d}`: decimal, zero-padded to width 3. -/
def py03d (n : ℕ) : String :=
  let s := toString n
  String.mk (List.replicate (3 - s.length) '0') ++ s

/-- Python `int()` applied to a real number: truncation toward zero. -/
def pyInt (q : ℚ) : ℤ := if q < 0 then ⌈q⌉ else ⌊q⌋

/-- Python `str` of a list of ints, as interpolated by the f-string that
formats a bounding box, e.g. `[10, 10, 150, 30]`. -/
def bboxRepr (bb : List ℤ) : String :=
  "[" ++ String.intercalate ", " (bb.map toString) ++ "]"

/-! ## `get_bbox` (convert.py lines 137-146)

A labelme `points` value is a JSON list of point lists; the code reads
`points[0][0]`, `points[0][1]`, `points[1][0]`, `points[1][1]`.  Fewer
points (or coordinates) raise `IndexError`, modelled as `none`. -/

/-- Embedding of `get_bbox`: bounding box `[left, upper, right, lower]`
from the first two points, `min`/`max` of coordinates converted with
`int()`. -/
def get_bbox (points : List (List ℚ)) : Option (List ℤ) :=
  match points with
  | (x0 :: y0 :: _) :: (x1 :: y1 :: _) :: _ =>
    some [pyInt (min x0 x1), pyInt (min y0 y1), pyInt (max x0 x1), pyInt (max y0 y1)]
  | _ => none

/-- Truncation toward zero is monotone. -/
theorem pyInt_mono {a b : ℚ} (h : a ≤ b) : pyInt a ≤ pyInt b := by
  unfold pyInt
  by_cases ha : a < 0
  · by_cases hb : b < 0
    · rw [if_pos ha, if_pos hb]
      exact Int.ceil_mono h
    · rw [if_pos ha, if_neg hb]
      refine le_trans (Int.ceil_le.mpr ?_) (Int.floor_nonneg.mpr (not_lt.mp hb))
      exact_mod_cast le_of_lt ha
  · have hb : ¬b < 0 := fun hb => ha (lt_of_le_of_lt h hb)
    rw [if_neg ha, if_neg hb]
    exact Int.floor_mono h

/-- C6: for every `points` value holding at least two (x, y) pairs the
computed bounding box uses only the first two pairs (and only the first
two coordinates of each), and equals `[left, upper, right, lower]` with
left/upper the minimum and right/lower the maximum of the two x/y
values, each converted to an integer by `int()`. -/
theorem get_bbox_first_two_pairs (x0 y0 x1 y1 : ℚ) (t0 t1 : List ℚ) (rest : List (List ℚ)) :
    get_bbox ((x0 :: y0 :: t0) :: (x1 :: y1 :: t1) :: rest)
      = some [pyInt (min x0 x1), pyInt (min y0 y1), pyInt (max x0 x1), pyInt (max y0 y1)] := rfl

/-- Any successful `get_bbox` result is a four-element non-inverted box. -/
theorem bbox_shape_of_get_bbox {pts : List (List ℚ)} {bb : List ℤ}
    (h : get_bbox pts = some bb) :
    ∃ l u r low, bb = [l, u, r, low] ∧ l ≤ r ∧ u ≤ low := by
  rcases pts with _ | ⟨p0, ps⟩
  · simp [get_bbox] at h
  rcases p0 with _ | ⟨x0, p0t⟩
  · simp [get_bbox] at h
  rcases p0t with _ | ⟨y0, t0⟩
  · simp [get_bbox] at h
  rcases ps with _ | ⟨p1, rest⟩
  · simp [get_bbox] at h
  rcases p1 with _ | ⟨x1, p1t⟩
  · simp [get_bbox] at h
  rcases p1t with _ | ⟨y1, t1⟩
  · simp [get_bbox] at h
  refine ⟨pyInt (min x0 x1), pyInt (min y0 y1), pyInt (max x0 x1), pyInt (max y0 y1),
    ?_, pyInt_mono min_le_max, pyInt_mono min_le_max⟩
  simpa [get_bbox] using h.symm

/-- C10: whenever `get_bbox` succeeds, the resulting box satisfies
`left ≤ right` and `upper ≤ lower` — the min/max construction followed by
integer truncation can never produce an inverted box. -/
theorem get_bbox_never_inverted (pts : List (List ℚ)) (bb : List ℤ)
    (h : get_bbox pts = some bb) :
    ∃ l u r low, bb = [l, u, r, low] ∧ l ≤ r ∧ u ≤ low :=
  bbox_shape_of_get_bbox h

/-- Witness for C10 at a concrete input: points `[[5, 4], [3, 2]]` give the
box `[3, 2, 5, 4]`, which is not inverted. -/
theorem get_bbox_never_inverted_witness :
    ∃ l u r low, ([3, 2, 5, 4] : List ℤ) = [l, u, r, low] ∧ l ≤ r ∧ u ≤ low :=
  get_bbox_never_inverted [[(5 : ℚ), 4], [3, 2]] [3, 2, 5, 4] (by decide)

/-! ## Pairing resolver: `get_json_file` (convert.py lines 126-134)

The code calls the standard library `bisect.bisect`, whose contract on a
sorted list is the bisect-right insertion point: the index after all
entries less than or equal to the target, i.e. the number of entries
less than or equal to it. -/

/-- Python `bisect.bisect` (= `bisect_right`) on a sorted list: the number
of entries `≤ x`. -/
def bisect_bisect (a : List String) (x : String) : ℕ :=
  a.countP (fun y => pyStrLe y x)

/-- Embedding of `get_json_file`.  The source also guards `idx < 0`, which
cannot occur for an insertion point (here a `Nat`). -/
def get_json_file (json_files : List String) (json_count : ℕ) (filename : String) :
    Option String :=
  let idx := bisect_bisect json_files filename
  if idx ≥ json_count then none else json_files[idx]?

/-! Order facts about the code-point comparison. -/

theorem lexLtCh_irrefl (l : List Char) : lexLtCh l l = false := by
  induction l with
  | nil => rfl
  | cons a as ih => simp [lexLtCh, ih]

theorem lexLtCh_trans {a b c : List Char} (hab : lexLtCh a b = true)
    (hbc : lexLtCh b c = true) : lexLtCh a c = true := by
  induction a generalizing b c with
  | nil =>
    cases b with
    | nil => simp [lexLtCh] at hab
    | cons y bs =>
      cases c with
      | nil => simp [lexLtCh] at hbc
      | cons z cs => rfl
  | cons x as ih =>
    cases b with
    | nil => simp [lexLtCh] at hab
    | cons y bs =>
      cases c with
      | nil => simp [lexLtCh] at hbc
      | cons z cs =>
        simp only [lexLtCh] at hab hbc ⊢
        by_cases hxy : x.toNat < y.toNat
        · by_cases hyz : y.toNat < z.toNat
          · simp [Nat.lt_trans hxy hyz]
          · simp only [if_pos rfl, hyz, if_false] at hbc
            by_cases hyz2 : y.toNat = z.toNat
            · simp [hyz2 ▸ hxy]
            · simp [hyz2] at hbc
        · simp only [hxy, if_false] at hab
          by_cases hxy2 : x.toNat = y.toNat
          · simp only [hxy2, if_pos rfl] at hab
            by_cases hyz : y.toNat < z.toNat
            · simp [hxy2 ▸ hyz]
            · simp only [hyz, if_false] at hbc
              by_cases hyz2 : y.toNat = z.toNat
              · have hxz : x.toNat = z.toNat := hxy2.trans hyz2
                simp only [hyz2, if_pos rfl] at hbc
                simp [hxz, Nat.lt_irrefl, ih hab hbc]
              · simp [hyz2] at hbc
          · simp [hxy2] at hab

theorem lexLtCh_eq_of_not_lt {a b : List Char} (h1 : lexLtCh a b = false)
    (h2 : lexLtCh b a = false) : a = b := by
  induction a generalizing b with
  | nil =>
    cases b with
    | nil => rfl
    | cons y bs => simp [lexLtCh] at h1
  | cons x as ih =>
    cases b with
    | nil => simp [lexLtCh] at h2
    | cons y bs =>
      simp only [lexLtCh] at h1 h2
      by_cases hxy : x.toNat < y.toNat
      · simp [hxy] at h1
      · by_cases hyx : y.toNat < x.toNat
        · simp [hyx] at h2
        · have hn : x.toNat = y.toNat := Nat.le_antisymm (Nat.not_lt.mp hyx) (Nat.not_lt.mp hxy)
          have hc : x = y := Char.ext (UInt32.toNat.inj hn)
          subst hc
          simp only [lt_self_iff_false, if_false, if_pos rfl] at h1 h2
          rw [ih h1 h2]

theorem pyStrLe_refl (a : String) : pyStrLe a a = true := by
  simp [pyStrLe, lexLtCh_irrefl]

theorem pyStrLe_trans {a b c : String} (hab : pyStrLe a b = true)
    (hbc : pyStrLe b c = true) : pyStrLe a c = true := by
  unfold pyStrLe at hab hbc ⊢
  rw [Bool.not_eq_true'] at hab hbc
  rw [Bool.not_eq_true']
  cases hca : lexLtCh c.toList a.toList with
  | false => rfl
  | true =>
    exfalso
    cases hbc2 : lexLtCh b.toList c.toList with
    | true =>
      have h := lexLtCh_trans hbc2 hca
      rw [hab] at h
      exact Bool.noConfusion h
    | false =>
      have heq : b.toList = c.toList := lexLtCh_eq_of_not_lt hbc2 hbc
      rw [heq] at hab
      rw [hab] at hca
      exact Bool.noConfusion hca

/-- On a list sorted by `pyStrLe`, an element is `≤ x` exactly when its
index is below the bisect-right insertion point of `x`. -/
theorem sorted_get_le_iff (l : List String) (x : String)
    (hs : l.Pairwise (fun a b => pyStrLe a b = true)) :
    ∀ i (hi : i < l.length),
      (pyStrLe (l.get ⟨i, hi⟩) x = true ↔ i < l.countP (fun y => pyStrLe y x)) := by
  induction l with
  | nil => intro i hi; exact absurd hi (Nat.not_lt_zero i)
  | cons a t ih =>
    have ha : ∀ y ∈ t, pyStrLe a y = true := (List.pairwise_cons.mp hs).1
    have ht := (List.pairwise_cons.mp hs).2
    intro i hi
    rw [List.countP_cons]
    by_cases hpa : pyStrLe a x = true
    · rw [if_pos hpa]
      cases i with
      | zero => simpa using hpa
      | succ j =>
        have hj : j < t.length := Nat.lt_of_succ_lt_succ hi
        have := ih ht j hj
        simp only [List.get_cons_succ]
        rw [this]
        omega
    · have hzero : t.countP (fun y => pyStrLe y x) = 0 := by
        rw [List.countP_eq_zero]
        intro y hy
        intro hyx
        exact hpa (pyStrLe_trans (ha y hy) hyx)
      rw [if_neg hpa, hzero]
      cases i with
      | zero => simpa using hpa
      | succ j =>
        have hj : j < t.length := Nat.lt_of_succ_lt_succ hi
        simp only [List.get_cons_succ]
        constructor
        · intro hyx
          exact absurd (pyStrLe_trans (ha _ (List.get_mem t j hj)) hyx) hpa
        · intro hlt; exact absurd hlt (by omega)

/-- C1 (amended): on a sorted annotation list the resolver returns the
first annotation name sorting strictly after the base name — the entry at
the bisect-right insertion point — and returns `none` exactly when every
annotation name is `≤` the base name (the insertion point equals the list
length).  An annotation name equal to the base name is not itself a
candidate. -/
theorem get_json_file_nearest_successor (l : List String) (x : String)
    (hs : l.Pairwise (fun a b => pyStrLe a b = true)) :
    (get_json_file l l.length x = none ↔ ∀ y ∈ l, pyStrLe y x = true) ∧
    (∀ j, get_json_file l l.length x = some j →
      j ∈ l ∧ pyStrLt x j = true ∧ ∀ y ∈ l, pyStrLt x y = true → pyStrLe j y = true) := by
  have hkle : l.countP (fun y => pyStrLe y x) ≤ l.length := List.countP_le_length _
  constructor
  · constructor
    · intro hnone
      refine List.countP_eq_length.mp ?_
      by_contra hne
      have hk : l.countP (fun y => pyStrLe y x) < l.length := lt_of_le_of_ne hkle hne
      unfold get_json_file bisect_bisect at hnone
      rw [if_neg (Nat.not_le.mpr hk)] at hnone
      rw [List.getElem?_eq_getElem hk] at hnone
      exact Option.noConfusion hnone
    · intro hall
      unfold get_json_file bisect_bisect
      rw [if_pos (Nat.le_of_eq (List.countP_eq_length.mpr (fun y hy => hall y hy)).symm)]
  · intro j hj
    unfold get_json_file bisect_bisect at hj
    by_cases hk : l.countP (fun y => pyStrLe y x) ≥ l.length
    · rw [if_pos hk] at hj; exact absurd hj (Option.noConfusion)
    · have hklt : l.countP (fun y => pyStrLe y x) < l.length := Nat.not_le.mp hk
      rw [if_neg hk, List.getElem?_eq_getElem hklt] at hj
      have hjget : l.get ⟨l.countP (fun y => pyStrLe y x), hklt⟩ = j := by
        simpa [List.get_eq_getElem] using Option.some.inj hj
      have hjle : pyStrLe (l.get ⟨l.countP (fun y => pyStrLe y x), hklt⟩) x = false := by
        cases he : pyStrLe (l.get ⟨l.countP (fun y => pyStrLe y x), hklt⟩) x
        · rfl
        · exact absurd ((sorted_get_le_iff l x hs _ hklt).mp he) (Nat.lt_irrefl _)
      refine ⟨hjget ▸ List.get_mem l _ hklt, ?_, ?_⟩
      · rw [← hjget]
        unfold pyStrLe at hjle
        rw [Bool.not_eq_false'] at hjle
        unfold pyStrLt
        exact hjle
      · intro y hy hxy
        obtain ⟨i, hiy⟩ := List.get_of_mem hy
        have hyle : pyStrLe y x = false := by
          unfold pyStrLt at hxy
          unfold pyStrLe
          rw [hxy]
          rfl
        have hige : ¬(i.val < l.countP (fun y => pyStrLe y x)) := by
          intro hlt
          have := (sorted_get_le_iff l x hs i.val i.isLt).mpr hlt
          rw [hiy] at this
          exact absurd this (by simp [hyle])
        rcases Nat.lt_or_ge (l.countP (fun y => pyStrLe y x)) i.val with hlt | hge
        · have := (List.pairwise_iff_get.mp hs) ⟨_, hklt⟩ i hlt
          rw [hjget, hiy] at this
          exact this
        · have : i.val = l.countP (fun y => pyStrLe y x) := Nat.le_antisymm hge (Nat.not_lt.mp hige)
          have : y = j := by
            rw [← hiy, ← hjget]
            congr 1
            exact Fin.ext this
          rw [this]
          exact pyStrLe_refl j

/-- Witness for C1 (amended) at `["a.json", "b.json"]` and base name `"a"`:
the resolver returns `"a.json"`, which sorts strictly after `"a"` and is
the least such entry. -/
theorem get_json_file_nearest_successor_witness :
    "a.json" ∈ ["a.json", "b.json"] ∧ pyStrLt "a" "a.json" = true ∧
      ∀ y ∈ ["a.json", "b.json"], pyStrLt "a" y = true → pyStrLe "a.json" y = true :=
  (get_json_file_nearest_successor ["a.json", "b.json"] "a" (by decide)).2 "a.json" (by decide)

/-- Counterexample to C1 as stated: for the sorted annotation list `["a"]`
and base name `"a"`, the binary-search insertion point in the
first-at-or-after sense is 0 (no entry sorts strictly before `"a"`), which
is less than the list length, so the claim requires the match `some "a"`;
the code (bisect-right) returns `none`. -/
theorem get_json_file_counterexample :
    List.Pairwise (fun a b => pyStrLe a b = true) ["a"] ∧
    (["a"] : List String).countP (fun y => pyStrLt y "a") = 0 ∧
    (["a"] : List String)[(0 : ℕ)]? = some "a" ∧
    get_json_file ["a"] 1 "a" = none := by decide

/-! ## Input scanner: `get_files` (convert.py lines 149-172) -/

/-- The fixed recognized image-extension list of the source. -/
def image_exts : List String := [".jpg", ".JPG", ".jpeg", ".JPEG", ".png", ".PNG"]

/-- Classification loop of `get_files`: walk the directory entries in
order, skipping names starting with a dot (or equal to the basename of
`except_file`), collecting `.json` names and recognized image names, and
aborting with `sys.exit` at the first entry with an unrecognized
extension.  Returns `(file_list, json_files, image_files)` before
sorting. -/
def gf_loop (except_file : String) : List String → Except String (List String × List String × List String)
  | [] => .ok ([], [], [])
  | f :: rest =>
    if pyStartsWith f "." = true ∨ f = os_path_basename except_file then
      gf_loop except_file rest
    else if (splitext f).2 = ".json" then
      match gf_loop except_file rest with
      | .error m => .error m
      | .ok (fl, jf, imf) => .ok (f :: fl, f :: jf, imf)
    else if (splitext f).2 ∈ image_exts then
      match gf_loop except_file rest with
      | .error m => .error m
      | .ok (fl, jf, imf) => .ok (f :: fl, jf, f :: imf)
    else
      .error ("Invalid file '" ++ f ++ "'.")

/-- Stable ascending insertion of a name into a sorted list. -/
def insertSorted (x : String) : List String → List String
  | [] => [x]
  | y :: ys => if pyStrLe y x = true then y :: insertSorted x ys else x :: y :: ys

/-- Model of Python `list.sort()` on string lists: ascending lexicographic
order by code point.  The directory names sorted here are pairwise
distinct, so any correct ascending sort yields the same list as
CPython's. -/
def pySort : List String → List String
  | [] => []
  | x :: xs => insertSorted x (pySort xs)

/-- Embedding of `get_files`: classify entries, sort the three lists, and
return each with its length. -/
def get_files (entries : List String) (except_file : String := "") :
    Except String (List String × ℕ × List String × ℕ × List String × ℕ) :=
  match gf_loop except_file entries with
  | .error m => .error m
  | .ok (fl, jf, imf) =>
    .ok (pySort fl, (pySort fl).length, pySort jf, (pySort jf).length,
         pySort imf, (pySort imf).length)

/-- An entry the scanner tolerates: a dot file, a `.json` annotation, or a
recognized image extension. -/
def goodEntry (f : String) : Bool :=
  pyStartsWith f "." || decide ((splitext f).2 = ".json") || decide ((splitext f).2 ∈ image_exts)

/-- Entries classified as annotation files. -/
def pJson (f : String) : Bool :=
  !pyStartsWith f "." && decide ((splitext f).2 = ".json")

/-- Entries classified as image files. -/
def pImage (f : String) : Bool :=
  !pyStartsWith f "." && decide ((splitext f).2 ∈ image_exts)

theorem gf_loop_isOk (entries : List String) (h0 : "" ∉ entries) :
    (gf_loop "" entries).isOk = entries.all goodEntry := by
  induction entries with
  | nil => rfl
  | cons f rest ih =>
    have hne : f ≠ "" := fun h => h0 (h ▸ List.mem_cons_self f rest)
    have h0r : "" ∉ rest := fun h => h0 (List.mem_cons_of_mem f h)
    have hbase : os_path_basename "" = "" := rfl
    rw [List.all_cons]
    by_cases hdot : pyStartsWith f "." = true
    · rw [gf_loop, if_pos (Or.inl hdot)]
      simp [goodEntry, hdot, ih h0r]
    · have hcond : ¬(pyStartsWith f "." = true ∨ f = os_path_basename "") := by
        rintro (h | h)
        · exact hdot h
        · exact hne (h.trans hbase)
      rw [gf_loop, if_neg hcond]
      by_cases hjson : (splitext f).2 = ".json"
      · rw [if_pos hjson]
        have hgood : goodEntry f = true := by simp [goodEntry, hjson]
        rw [hgood, Bool.true_and, ← ih h0r]
        cases hrec : gf_loop "" rest with
        | error m => rfl
        | ok t => rcases t with ⟨fl, jf, imf⟩; rfl
      · rw [if_neg hjson]
        by_cases himg : (splitext f).2 ∈ image_exts
        · rw [if_pos himg]
          have hgood : goodEntry f = true := by simp [goodEntry, himg]
          rw [hgood, Bool.true_and, ← ih h0r]
          cases hrec : gf_loop "" rest with
          | error m => rfl
          | ok t => rcases t with ⟨fl, jf, imf⟩; rfl
        · rw [if_neg himg]
          have hgood : goodEntry f = false := by
            simp [goodEntry, hjson, himg, hdot]
          rw [hgood]
          rfl

theorem gf_loop_filters (entries : List String) (h0 : "" ∉ entries) :
    ∀ fl jf imf, gf_loop "" entries = .ok (fl, jf, imf) →
      jf = entries.filter pJson ∧ imf = entries.filter pImage := by
  induction entries with
  | nil =>
    intro fl jf imf h
    cases h
    exact ⟨rfl, rfl⟩
  | cons f rest ih =>
    intro fl jf imf h
    have hne : f ≠ "" := fun hh => h0 (hh ▸ List.mem_cons_self f rest)
    have h0r : "" ∉ rest := fun hh => h0 (List.mem_cons_of_mem f hh)
    by_cases hdot : pyStartsWith f "." = true
    · rw [gf_loop, if_pos (Or.inl hdot)] at h
      have hpj : pJson f = false := by simp [pJson, hdot]
      have hpi : pImage f = false := by simp [pImage, hdot]
      rw [List.filter_cons, hpj, List.filter_cons, hpi]
      simpa using ih h0r fl jf imf h
    · have hcond : ¬(pyStartsWith f "." = true ∨ f = os_path_basename "") := by
        rintro (hh | hh)
        · exact hdot hh
        · exact hne hh
      rw [gf_loop, if_neg hcond] at h
      by_cases hjson : (splitext f).2 = ".json"
      · rw [if_pos hjson] at h
        cases hrec : gf_loop "" rest with
        | error m => rw [hrec] at h; exact Except.noConfusion h
        | ok t =>
          rcases t with ⟨fl2, jf2, imf2⟩
          rw [hrec] at h
          injection h with h
          injection h with h1 h
          injection h with h2 h3
          obtain ⟨hj, hi⟩ := ih h0r fl2 jf2 imf2 hrec
          have hpj : pJson f = true := by simp [pJson, hdot, hjson]
          have hni : (splitext f).2 ∉ image_exts := by
            rw [hjson]
            decide
          have hpi : pImage f = false := by simp [pImage, hni]
          refine ⟨?_, ?_⟩
          · simp [List.filter_cons, hpj, ← h2, hj]
          · simp [List.filter_cons, hpi, ← h3, hi]
      · rw [if_neg hjson] at h
        by_cases himg : (splitext f).2 ∈ image_exts
        · rw [if_pos himg] at h
          cases hrec : gf_loop "" rest with
          | error m => rw [hrec] at h; exact Except.noConfusion h
          | ok t =>
            rcases t with ⟨fl2, jf2, imf2⟩
            rw [hrec] at h
            injection h with h
            injection h with h1 h
            injection h with h2 h3
            obtain ⟨hj, hi⟩ := ih h0r fl2 jf2 imf2 hrec
            have hpj : pJson f = false := by simp [pJson, hjson]
            have hpi : pImage f = true := by simp [pImage, hdot, himg]
            refine ⟨?_, ?_⟩
            · simp [List.filter_cons, hpj, ← h2, hj]
            · simp [List.filter_cons, hpi, ← h3, hi]
        · rw [if_neg himg] at h
          exact Except.noConfusion h

/-- C7 (amended): entries starting with a dot are ignored; entries with
extension `.json` are classified as annotation files; entries whose
extension is one of the six exact variants `.jpg`, `.JPG`, `.jpeg`,
`.JPEG`, `.png`, `.PNG` are classified as image files; any other
extension (including other case mixtures such as `.Jpg`) makes the scan
fail fatally.  The returned lists are the sorted classified entries with
their counts. -/
theorem get_files_classification (entries : List String) (h0 : "" ∉ entries) :
    ((get_files entries).isOk = entries.all goodEntry) ∧
    (∀ fl c jf jc imf ic, get_files entries = .ok (fl, c, jf, jc, imf, ic) →
      jf = pySort (entries.filter pJson) ∧ jc = (pySort (entries.filter pJson)).length ∧
      imf = pySort (entries.filter pImage) ∧ ic = (pySort (entries.filter pImage)).length) := by
  constructor
  · rw [← gf_loop_isOk entries h0]
    unfold get_files
    cases hrec : gf_loop "" entries with
    | error m => rfl
    | ok t => rcases t with ⟨fl, jf, imf⟩; rfl
  · intro fl c jf jc imf ic h
    unfold get_files at h
    cases hrec : gf_loop "" entries with
    | error m => rw [hrec] at h; exact Except.noConfusion h
    | ok t =>
      rcases t with ⟨fl2, jf2, imf2⟩
      rw [hrec] at h
      obtain ⟨hj, hi⟩ := gf_loop_filters entries h0 fl2 jf2 imf2 hrec
      injection h with h
      injection h with h1 h
      injection h with h2 h
      injection h with h3 h
      injection h with h4 h
      injection h with h5 h6
      subst hj hi
      exact ⟨h3.symm, h4.symm, h5.symm, h6.symm⟩

/-- Witness for C7 (amended) on the listing `["b.png", "a.json", ".x"]`:
the scan succeeds, the dot entry lands in neither list, and the two
classified lists are as characterized. -/
theorem get_files_classification_witness :
    ((get_files ["b.png", "a.json", ".x"]).isOk = (["b.png", "a.json", ".x"]).all goodEntry) ∧
    (∀ fl c jf jc imf ic, get_files ["b.png", "a.json", ".x"] = .ok (fl, c, jf, jc, imf, ic) →
      jf = pySort ((["b.png", "a.json", ".x"]).filter pJson) ∧
      jc = (pySort ((["b.png", "a.json", ".x"]).filter pJson)).length ∧
      imf = pySort ((["b.png", "a.json", ".x"]).filter pImage) ∧
      ic = (pySort ((["b.png", "a.json", ".x"]).filter pImage)).length) :=
  get_files_classification ["b.png", "a.json", ".x"] (by decide)

/-- ASCII lowercasing, as the case-insensitivity reading of the claim
requires. -/
def lowerChar (c : Char) : Char :=
  if 65 ≤ c.toNat ∧ c.toNat ≤ 90 then Char.ofNat (c.toNat + 32) else c

/-- Lowercase a string. -/
def lowerStr (s : String) : String := String.mk (s.toList.map lowerChar)

/-- The claim's classification: an extension that is jpg/jpeg/png in any
letter case is an image. -/
def specC7_isImage (f : String) : Bool :=
  decide (lowerStr (splitext f).2 ∈ [".jpg", ".jpeg", ".png"])

/-- Counterexample to C7 as stated: `a.Jpg` has extension `jpg` up to
letter case, so the claim classifies it as an image file; the code's
fixed list does not contain `.Jpg`, so the scan aborts the whole run
fatally on it. -/
theorem get_files_case_counterexample :
    specC7_isImage "a.Jpg" = true ∧
    get_files ["a.Jpg"] = .error "Invalid file 'a.Jpg'." := by decide

/-! ## Crop-and-emit loop (convert.py lines 89-118)

The stateful pipeline is modelled as a pure function to a trace of
externally visible effects plus a flag recording whether the process
halted early (`sys.exit` or an uncaught exception).  Console prints are
pure observability and are not modelled. -/

/-- One labelme shape: a label and its `points` array. -/
structure Shape where
  label : String
  points : List (List ℚ)
deriving DecidableEq

/-- A loaded PIL image: pixel dimensions and pixel data. -/
structure PILImage where
  w : ℕ
  h : ℕ
  px : ℤ → ℤ → ℕ

/-- Model of `PIL.Image.crop` with box `(l, u, r, low)`, from Pillow's
documented semantics: the result has size `(r - l, low - u)` and copies
the source pixel at `(l + x, u + y)` when that lies inside the source,
padding with zero outside. -/
def PIL_crop (img : PILImage) (l u r low : ℤ) : PILImage where
  w := (r - l).toNat
  h := (low - u).toNat
  px := fun x y =>
    if 0 ≤ l + x ∧ l + x < (img.w : ℤ) ∧ 0 ≤ u + y ∧ u + y < (img.h : ℤ) then
      img.px (l + x) (u + y)
    else 0

/-- Externally visible effects of the program. -/
inductive Effect where
  | exitE (msg : String)
  | crashE
  | mkdirE (path : String)
  | openFileE (path : String)
  | logWriteE (line : String)
  | labelsWriteE (line : String)
  | saveCropE (path : String) (cw ch : ℕ)
deriving DecidableEq

/-- A trace of effects together with a flag: `true` means the process
halted there (`sys.exit` or exception), so nothing later runs. -/
abbrev Tr := List Effect × Bool

/-- Sequencing of traces: if the first part halted, the rest never runs. -/
def seqTr (a b : Tr) : Tr := if a.2 then a else (a.1 ++ b.1, b.2)

theorem seqTr_assoc (a b c : Tr) : seqTr (seqTr a b) c = seqTr a (seqTr b c) := by
  rcases a with ⟨as, af⟩
  rcases b with ⟨bs, bf⟩
  rcases c with ⟨cs, cf⟩
  cases af
  · cases bf <;> simp [seqTr]
  · simp [seqTr]

theorem seqTr_of_fst_ok {a : Tr} (h : a.2 = false) (b : Tr) :
    seqTr a b = (a.1 ++ b.1, b.2) := by
  unfold seqTr
  rw [h]
  rfl

/-- Loop body for one shape at index `jj` (convert.py lines 105-118):
compute the bounding box, write one error-log line and skip if any
coordinate reaches the image dimensions, otherwise save the crop and
append one manifest record. -/
def processShape (filename ext image_file : String) (img : PILImage) (output_path : String)
    (jj : ℕ) (s : Shape) : Tr :=
  match get_bbox s.points with
  | some (l :: u :: r :: low :: _) =>
    if l ≥ (img.w : ℤ) ∨ u ≥ (img.h : ℤ) ∨ r ≥ (img.w : ℤ) ∨ low ≥ (img.h : ℤ) then
      ([.logWriteE ("'" ++ image_file ++ "'s " ++ s.label ++ " bbox: '"
          ++ bboxRepr [l, u, r, low] ++ "'\n")], false)
    else
      ([.saveCropE (joinPath output_path (filename ++ "_" ++ py03d jj ++ ext))
          (PIL_crop img l u r low).w (PIL_crop img l u r low).h,
        .labelsWriteE (filename ++ "_" ++ py03d jj ++ ext ++ "\t" ++ s.label ++ "\n")], false)
  | _ => ([.crashE], true)

/-- The `for jj, shape in enumerate(json_data["shapes"])` loop. -/
def shapeLoop (filename ext image_file : String) (img : PILImage) (output_path : String) :
    ℕ → List Shape → Tr
  | _, [] => ([], false)
  | jj, s :: rest =>
    seqTr (processShape filename ext image_file img output_path jj s)
          (shapeLoop filename ext image_file img output_path (jj + 1) rest)

theorem shapeLoop_append (filename ext image_file : String) (img : PILImage)
    (output_path : String) (bs : List Shape) :
    ∀ (as : List Shape) (j : ℕ),
      shapeLoop filename ext image_file img output_path j (as ++ bs)
        = seqTr (shapeLoop filename ext image_file img output_path j as)
                (shapeLoop filename ext image_file img output_path (j + as.length) bs) := by
  intro as
  induction as with
  | nil =>
    intro j
    simp [shapeLoop, seqTr]
  | cons a t ih =>
    intro j
    rw [List.cons_append, shapeLoop, shapeLoop, ih (j + 1), seqTr_assoc]
    have : j + 1 + t.length = j + (t.length + 1) := by omega
    rw [this]
    rfl

/-- C9: cropping with an in-bounds, non-inverted box `[l, u, r, low]`
yields an image whose pixel size is exactly `(r - l, low - u)`. -/
theorem crop_size (img : PILImage) (l u r low : ℤ)
    (_hl : 0 ≤ l) (hlr : l ≤ r) (_hr : r < (img.w : ℤ))
    (_hu : 0 ≤ u) (hulow : u ≤ low) (_hlow : low < (img.h : ℤ)) :
    ((PIL_crop img l u r low).w : ℤ) = r - l ∧
    ((PIL_crop img l u r low).h : ℤ) = low - u := by
  constructor
  · exact Int.toNat_of_nonneg (sub_nonneg.mpr hlr)
  · exact Int.toNat_of_nonneg (sub_nonneg.mpr hulow)

/-- Witness for C9: a 100×100 image cropped to `[10, 10, 50, 30]` has
size 40×20. -/
theorem crop_size_witness :
    ((PIL_crop ⟨100, 100, fun _ _ => 0⟩ 10 10 50 30).w : ℤ) = 50 - 10 ∧
    ((PIL_crop ⟨100, 100, fun _ _ => 0⟩ 10 10 50 30).h : ℤ) = 30 - 10 :=
  crop_size ⟨100, 100, fun _ _ => 0⟩ 10 10 50 30 (by decide) (by decide) (by decide)
    (by decide) (by decide) (by decide)

/-! ## Per-region behavior: claims C2 and C4 -/

/-- Manifest records (`labels.write` payloads) in a trace, in order. -/
def manifestLines : List Effect → List String
  | [] => []
  | .labelsWriteE s :: rest => s :: manifestLines rest
  | _ :: rest => manifestLines rest

/-- Crop-file save paths in a trace, in order. -/
def savedCropPaths : List Effect → List String
  | [] => []
  | .saveCropE p _ _ :: rest => p :: savedCropPaths rest
  | _ :: rest => savedCropPaths rest

/-- Error-log lines in a trace, in order. -/
def errorLogLines : List Effect → List String
  | [] => []
  | .logWriteE s :: rest => s :: errorLogLines rest
  | _ :: rest => errorLogLines rest

/-- The regions of a shape list that pass the code's bounds check (no
bounding-box coordinate reaching the image dimensions), paired with
their zero-based position in the full list. -/
def keptRegions (img : PILImage) : ℕ → List Shape → List (ℕ × Shape)
  | _, [] => []
  | j, s :: rest =>
    match get_bbox s.points with
    | some (l :: u :: r :: low :: _) =>
      if l ≥ (img.w : ℤ) ∨ u ≥ (img.h : ℤ) ∨ r ≥ (img.w : ℤ) ∨ low ≥ (img.h : ℤ) then
        keptRegions img (j + 1) rest
      else (j, s) :: keptRegions img (j + 1) rest
    | _ => keptRegions img (j + 1) rest

/-- C2 (amended): a region whose bounding box fails the code's check —
some coordinate at or above the image width/height; coordinates below
zero are not checked — produces exactly one error-log line, naming the
source image file and the label, and no crop-save or manifest effect,
and the remaining regions of the image are still processed (with their
original positional indices). -/
theorem oob_region_one_log_line
    (filename ext image_file : String) (img : PILImage) (output_path : String)
    (j : ℕ) (pre post : List Shape) (s : Shape) (l u r low : ℤ)
    (hbb : get_bbox s.points = some [l, u, r, low])
    (hbad : l ≥ (img.w : ℤ) ∨ u ≥ (img.h : ℤ) ∨ r ≥ (img.w : ℤ) ∨ low ≥ (img.h : ℤ))
    (hpre : (shapeLoop filename ext image_file img output_path j pre).2 = false) :
    shapeLoop filename ext image_file img output_path j (pre ++ s :: post)
      = ((shapeLoop filename ext image_file img output_path j pre).1
          ++ .logWriteE ("'" ++ image_file ++ "'s " ++ s.label ++ " bbox: '"
              ++ bboxRepr [l, u, r, low] ++ "'\n")
          :: (shapeLoop filename ext image_file img output_path (j + pre.length + 1) post).1,
         (shapeLoop filename ext image_file img output_path (j + pre.length + 1) post).2) := by
  rw [shapeLoop_append filename ext image_file img output_path (s :: post) pre j,
      seqTr_of_fst_ok hpre, shapeLoop]
  have hps : processShape filename ext image_file img output_path (j + pre.length) s
      = ([.logWriteE ("'" ++ image_file ++ "'s " ++ s.label ++ " bbox: '"
          ++ bboxRepr [l, u, r, low] ++ "'\n")], false) := by
    simp only [processShape, hbb]
    rw [if_pos hbad]
  rw [hps, seqTr_of_fst_ok (by rfl)]
  rfl

/-- Witness for C2 (amended): the spec's own example — a region with
points `[[10, 10], [150, 30]]` on a 100×100 image (right = 150 ≥ 100) is
logged once and produces no output. -/
theorem oob_region_one_log_line_witness :
    shapeLoop "image00001" ".png" "image00001.png" ⟨100, 100, fun _ _ => 0⟩ "out" 0
        ([] ++ (⟨"abcd", [[10, 10], [150, 30]]⟩ : Shape) :: [])
      = ((shapeLoop "image00001" ".png" "image00001.png" ⟨100, 100, fun _ _ => 0⟩ "out" 0 []).1
          ++ .logWriteE ("'" ++ "image00001.png" ++ "'s " ++ "abcd" ++ " bbox: '"
              ++ bboxRepr [10, 10, 150, 30] ++ "'\n")
          :: (shapeLoop "image00001" ".png" "image00001.png" ⟨100, 100, fun _ _ => 0⟩ "out"
                (0 + List.length ([] : List Shape) + 1) []).1,
         (shapeLoop "image00001" ".png" "image00001.png" ⟨100, 100, fun _ _ => 0⟩ "out"
            (0 + List.length ([] : List Shape) + 1) []).2) :=
  oob_region_one_log_line "image00001" ".png" "image00001.png" ⟨100, 100, fun _ _ => 0⟩ "out"
    0 [] [] ⟨"abcd", [[10, 10], [150, 30]]⟩ 10 10 150 30 (by decide) (by decide) rfl

/-- The claim's validity notion: all four coordinates strictly within
`[0, width)` resp. `[0, height)`. -/
def specInBounds (img : PILImage) (bb : List ℤ) : Bool :=
  match bb with
  | [l, u, r, low] =>
    decide (0 ≤ l ∧ l < (img.w : ℤ) ∧ 0 ≤ u ∧ u < (img.h : ℤ)
      ∧ 0 ≤ r ∧ r < (img.w : ℤ) ∧ 0 ≤ low ∧ low < (img.h : ℤ))
  | _ => false

/-- Counterexample to C2 as stated: the box `[-5, -5, 10, 10]` on a
100×100 image is out of range under the claim's `[0, width)` validity
(negative left/upper), so the claim requires the region to be skipped
with one error-log line; the code's check has no lower bound, so it
crops and emits a manifest record and writes no log line. -/
theorem oob_region_counterexample :
    specInBounds ⟨100, 100, fun _ _ => 0⟩ [-5, -5, 10, 10] = false ∧
    processShape "a" ".png" "a.png" ⟨100, 100, fun _ _ => 0⟩ "out" 0
        ⟨"neg", [[-5, -5], [10, 10]]⟩
      = ([.saveCropE "out/a_000.png" 15 15, .labelsWriteE "a_000.png\tneg\n"], false) := by
  decide

/-- C4 (amended): over any shape list whose regions all have computable
bounding boxes, the manifest records of the region loop are exactly one
record `{filename}_{i:03d}{ext}\t{label}\n` per region passing the
code's bounds check (all four coordinates below width/height; negative
coordinates are not excluded), where `i` is the region's zero-based
position in the full shape list, and the crop files saved are exactly
the same names joined under the output path, in the same order; the loop
never halts early.  Counts follow: N kept regions give exactly N
manifest records and N crop files. -/
theorem manifest_records_and_crops
    (filename ext image_file : String) (img : PILImage) (output_path : String)
    (ss : List Shape) (hpts : ∀ s ∈ ss, (get_bbox s.points).isSome = true) :
    ∀ j : ℕ,
      manifestLines (shapeLoop filename ext image_file img output_path j ss).1
        = (keptRegions img j ss).map
            (fun p => filename ++ "_" ++ py03d p.1 ++ ext ++ "\t" ++ p.2.label ++ "\n") ∧
      savedCropPaths (shapeLoop filename ext image_file img output_path j ss).1
        = (keptRegions img j ss).map
            (fun p => joinPath output_path (filename ++ "_" ++ py03d p.1 ++ ext)) ∧
      (shapeLoop filename ext image_file img output_path j ss).2 = false := by
  induction ss with
  | nil =>
    intro j
    exact ⟨rfl, rfl, rfl⟩
  | cons s rest ih =>
    intro j
    have hs := hpts s (List.mem_cons_self s rest)
    obtain ⟨bb, hbb0⟩ := Option.isSome_iff_exists.mp hs
    obtain ⟨l, u, r, low, hbbeq, _, _⟩ := bbox_shape_of_get_bbox hbb0
    rw [hbbeq] at hbb0
    have hrest : ∀ s2 ∈ rest, (get_bbox s2.points).isSome = true :=
      fun s2 h2 => hpts s2 (List.mem_cons_of_mem s h2)
    obtain ⟨ihm, ihs, ihf⟩ := ih hrest (j + 1)
    by_cases hbad : l ≥ (img.w : ℤ) ∨ u ≥ (img.h : ℤ) ∨ r ≥ (img.w : ℤ) ∨ low ≥ (img.h : ℤ)
    · have hps : processShape filename ext image_file img output_path j s
          = ([.logWriteE ("'" ++ image_file ++ "'s " ++ s.label ++ " bbox: '"
              ++ bboxRepr [l, u, r, low] ++ "'\n")], false) := by
        simp only [processShape, hbb0]
        rw [if_pos hbad]
      rw [shapeLoop, hps, seqTr_of_fst_ok (by rfl)]
      have hkept : keptRegions img j (s :: rest) = keptRegions img (j + 1) rest := by
        simp only [keptRegions, hbb0]
        rw [if_pos hbad]
      rw [hkept]
      exact ⟨by simpa [manifestLines] using ihm, by simpa [savedCropPaths] using ihs, by simpa using ihf⟩
    · have hps : processShape filename ext image_file img output_path j s
          = ([.saveCropE (joinPath output_path (filename ++ "_" ++ py03d j ++ ext))
                (PIL_crop img l u r low).w (PIL_crop img l u r low).h,
              .labelsWriteE (filename ++ "_" ++ py03d j ++ ext ++ "\t" ++ s.label ++ "\n")],
             false) := by
        simp only [processShape, hbb0]
        rw [if_neg hbad]
      rw [shapeLoop, hps, seqTr_of_fst_ok (by rfl)]
      have hkept : keptRegions img j (s :: rest) = (j, s) :: keptRegions img (j + 1) rest := by
        simp only [keptRegions, hbb0]
        rw [if_neg hbad]
      rw [hkept]
      refine ⟨?_, ?_, by simpa using ihf⟩
      · simpa [manifestLines] using ihm
      · simpa [savedCropPaths] using ihs

/-- Witness for C4 (amended): three regions on a 100×100 image, the
middle one out of bounds; the manifest records and crop paths are those
of the kept regions at positions 0 and 2. -/
theorem manifest_records_and_crops_witness :
    manifestLines (shapeLoop "a" ".png" "a.png" ⟨100, 100, fun _ _ => 0⟩ "out" 0
        [⟨"abcd", [[10, 10], [50, 30]]⟩, ⟨"big", [[10, 10], [150, 30]]⟩,
         ⟨"ef", [[0, 0], [20, 20]]⟩]).1
      = (keptRegions ⟨100, 100, fun _ _ => 0⟩ 0
          [⟨"abcd", [[10, 10], [50, 30]]⟩, ⟨"big", [[10, 10], [150, 30]]⟩,
           ⟨"ef", [[0, 0], [20, 20]]⟩]).map
          (fun p => "a" ++ "_" ++ py03d p.1 ++ ".png" ++ "\t" ++ p.2.label ++ "\n") ∧
    savedCropPaths (shapeLoop "a" ".png" "a.png" ⟨100, 100, fun _ _ => 0⟩ "out" 0
        [⟨"abcd", [[10, 10], [50, 30]]⟩, ⟨"big", [[10, 10], [150, 30]]⟩,
         ⟨"ef", [[0, 0], [20, 20]]⟩]).1
      = (keptRegions ⟨100, 100, fun _ _ => 0⟩ 0
          [⟨"abcd", [[10, 10], [50, 30]]⟩, ⟨"big", [[10, 10], [150, 30]]⟩,
           ⟨"ef", [[0, 0], [20, 20]]⟩]).map
          (fun p => joinPath "out" ("a" ++ "_" ++ py03d p.1 ++ ".png")) ∧
    (shapeLoop "a" ".png" "a.png" ⟨100, 100, fun _ _ => 0⟩ "out" 0
        [⟨"abcd", [[10, 10], [50, 30]]⟩, ⟨"big", [[10, 10], [150, 30]]⟩,
         ⟨"ef", [[0, 0], [20, 20]]⟩]).2 = false :=
  manifest_records_and_crops "a" ".png" "a.png" ⟨100, 100, fun _ _ => 0⟩ "out"
    [⟨"abcd", [[10, 10], [50, 30]]⟩, ⟨"big", [[10, 10], [150, 30]]⟩,
     ⟨"ef", [[0, 0], [20, 20]]⟩] (by decide) 0

/-- Count of regions whose bounding box is in bounds in the claim's
`[0, width)` sense. -/
def specInBoundsCount (img : PILImage) (ss : List Shape) : ℕ :=
  ss.countP (fun s =>
    match get_bbox s.points with
    | some bb => specInBounds img bb
    | none => false)

/-- Counterexample to C4 as stated: an annotation with one in-bounds
region (in the claim's `[0, width)` sense) and one region with negative
coordinates — the claim then requires exactly one manifest record, but
the code emits two, because its bounds check has no lower bound. -/
theorem manifest_count_counterexample :
    specInBoundsCount ⟨100, 100, fun _ _ => 0⟩
        [⟨"ok", [[0, 0], [10, 10]]⟩, ⟨"neg", [[-5, -5], [10, 10]]⟩] = 1 ∧
    (manifestLines (shapeLoop "a" ".png" "a.png" ⟨100, 100, fun _ _ => 0⟩ "out" 0
        [⟨"ok", [[0, 0], [10, 10]]⟩, ⟨"neg", [[-5, -5], [10, 10]]⟩]).1).length = 2 := by
  decide

/-! ## The full run and the `__main__` block (convert.py lines 67-123 and
198-228)

`run` and the main block read the filesystem through an environment of
oracles: existence and directory tests, directory listings, parsed JSON
annotation content, and opened images.  `sys.exit` and uncaught
exceptions (missing files, malformed data) halt the trace. -/

/-- Filesystem and data environment of a run. -/
structure Env where
  pathExists : String → Bool
  isdir : String → Bool
  listing : String → Option (List String)
  jsonOf : String → Option (List Shape)
  imgOf : String → Option PILImage

/-- Body of the per-image loop (convert.py lines 93-118): split the image
name, resolve the paired annotation via `get_json_file` (skipping the
image with a console message when there is none), load the JSON and the
image, and process all shapes. -/
def processImage (env : Env) (input_path output_path : String)
    (json_files : List String) (json_count : ℕ) (image_file : String) : Tr :=
  match get_json_file json_files json_count (splitext image_file).1 with
  | none => ([], false)
  | some json_file =>
    match env.jsonOf (joinPath input_path json_file) with
    | none => ([.crashE], true)
    | some shapes =>
      match env.imgOf (joinPath input_path image_file) with
      | none => ([.crashE], true)
      | some img =>
        shapeLoop (splitext image_file).1 (splitext image_file).2 image_file img
          output_path 0 shapes

/-- The `for ii, image_file in enumerate(image_files)` loop. -/
def imageLoop (env : Env) (input_path output_path : String)
    (json_files : List String) (json_count : ℕ) : List String → Tr
  | [] => ([], false)
  | f :: rest =>
    seqTr (processImage env input_path output_path json_files json_count f)
          (imageLoop env input_path output_path json_files json_count rest)

/-- Embedding of `run` (convert.py lines 67-123): check the input path,
refuse an existing output directory, create the output directory, scan
and pair the files, abort on a count mismatch, open the manifest and run
the image loop.  `os.path.abspath` in the exit messages is modelled as
the identity on these paths. -/
def run (env : Env) (input_path output_path : String) : Tr :=
  if env.pathExists input_path = false then
    ([.exitE ("Can't find '" ++ input_path ++ "' directory.")], true)
  else if env.isdir output_path = true then
    ([.exitE ("'" ++ output_path ++ "' directory is already exists.")], true)
  else
    seqTr ([.mkdirE output_path], false)
      (match env.listing input_path with
       | none => ([.crashE], true)
       | some entries =>
         match get_files entries with
         | .error m => ([.exitE m], true)
         | .ok (_, _, json_files, json_count, image_files, image_count) =>
           if json_count ≠ image_count then
             ([.exitE "The number of json files and image files does not match exactly"], true)
           else
             seqTr ([.openFileE (joinPath output_path "labels.txt")], false)
               (imageLoop env input_path output_path json_files json_count image_files))

/-- The 80-dash separator written around each group's error-log section. -/
def dashedLine : String := String.mk (List.replicate 80 '-')

/-- Per-group section of the main block (convert.py lines 214-226): group
header and separator into the error log, then `run`, then a separator. -/
def groupLoop (env : Env) (input_path output_path : String) : List String → Tr
  | [] => ([], false)
  | g :: rest =>
    seqTr ([.logWriteE ("Convert error logs of '" ++ g ++ "'\n"),
            .logWriteE (dashedLine ++ "\n")], false)
      (seqTr (run env (joinPath input_path g) (joinPath output_path g))
        (seqTr ([.logWriteE (dashedLine ++ "\n")], false)
          (groupLoop env input_path output_path rest)))

/-- Embedding of the `__main__` block (convert.py lines 198-228): resolve
the group list (listing the input root when no group name is given — an
uncaught exception if it is missing), refuse an existing output root,
create it, open the error log inside it, and convert every group. -/
def pymain (env : Env) (input_path output_path : String) (group_name : Option String) : Tr :=
  match (match group_name with
         | some g => some [g]
         | none => env.listing input_path) with
  | none => ([.crashE], true)
  | some groups =>
    if env.isdir output_path = true then
      ([.exitE ("'" ++ output_path ++ "' directory is already exists.")], true)
    else
      seqTr ([.mkdirE output_path], false)
        (seqTr ([.openFileE (joinPath output_path "error.txt")], false)
          (groupLoop env input_path output_path groups))

/-- Effects that create or write an output file. -/
def isFileOutput (e : Effect) : Bool :=
  match e with
  | .openFileE _ => true
  | .logWriteE _ => true
  | .labelsWriteE _ => true
  | .saveCropE _ _ _ => true
  | _ => false

/-- C3 (amended): when the annotation and image counts of an input
directory differ, `run` halts at the count check having created the
(empty) group output directory and nothing else: no file is created or
written in it; the manifest is never opened.  (At the process level the
output root and the shared error log — with this group's header line —
already exist, created by the main block before `run` starts.) -/
theorem count_mismatch_stops_before_output
    (env : Env) (ip op : String) (entries fl jf imf : List String) (c jc ic : ℕ)
    (h1 : env.pathExists ip = true) (h2 : env.isdir op = false)
    (h3 : env.listing ip = some entries)
    (h4 : get_files entries = .ok (fl, c, jf, jc, imf, ic))
    (h5 : jc ≠ ic) :
    run env ip op
      = ([.mkdirE op,
          .exitE "The number of json files and image files does not match exactly"], true) := by
  unfold run
  rw [if_neg (by simp [h1]), if_neg (by simp [h2]), h3]
  simp [h4, h5, seqTr]

/-- Concrete environment: input root `in` listing one group `g`, whose
directory holds one annotation and two images. -/
def env0 : Env where
  pathExists := fun p => p == "in" || p == "in/g"
  isdir := fun p => p == "in" || p == "in/g"
  listing := fun p =>
    if p == "in" then some ["g"]
    else if p == "in/g" then some ["a.json", "b.png", "c.png"]
    else none
  jsonOf := fun _ => none
  imgOf := fun _ => none

/-- Witness for C3 (amended): in `env0`, group `g` has 1 annotation and
2 images, and `run` stops right after creating the group directory. -/
theorem count_mismatch_stops_before_output_witness :
    run env0 "in/g" "out/g"
      = ([.mkdirE "out/g",
          .exitE "The number of json files and image files does not match exactly"], true) :=
  count_mismatch_stops_before_output env0 "in/g" "out/g"
    ["a.json", "b.png", "c.png"] ["a.json", "b.png", "c.png"] ["a.json"] ["b.png", "c.png"]
    3 1 2 (by decide) (by decide) (by decide) (by decide) (by decide)

/-- Counterexample to C3 as stated: in `env0` the counts for group `g`
mismatch and the process aborts at the count check (last trace entry),
yet three file-output effects have already happened — the error log was
created under the output root and two lines (the group header naming
this directory, and a separator) were written to it before the abort. -/
theorem count_mismatch_counterexample :
    (pymain env0 "in" "out" none).1.getLast?
      = some (.exitE "The number of json files and image files does not match exactly") ∧
    (pymain env0 "in" "out" none).1.countP isFileOutput = 3 := by decide

/-- C5: whenever the output path already exists as a directory, the whole
process halts with only an error — a `sys.exit` message (or, when the
input root listing also fails, the uncaught listing exception) — and
performs no effect that could create, change, or remove anything: no
directory creation, no file creation, no write. -/
theorem existing_output_never_modified (env : Env) (ip op : String) (g : Option String)
    (h : env.isdir op = true) :
    (pymain env ip op g).2 = true ∧
    ∀ e ∈ (pymain env ip op g).1,
      e = .crashE ∨ e = .exitE ("'" ++ op ++ "' directory is already exists.") := by
  unfold pymain
  cases g with
  | some gname => simp [h]
  | none =>
    cases hl : env.listing ip with
    | none => simp
    | some gs => simp [h]

/-- Environment whose every path is an existing directory. -/
def envAllDirs : Env where
  pathExists := fun _ => true
  isdir := fun _ => true
  listing := fun _ => some ["g"]
  jsonOf := fun _ => none
  imgOf := fun _ => none

/-- Witness for C5: with an existing output root the process only exits. -/
theorem existing_output_never_modified_witness :
    (pymain envAllDirs "in" "out" none).2 = true ∧
    ∀ e ∈ (pymain envAllDirs "in" "out" none).1,
      e = .crashE ∨ e = .exitE ("'" ++ "out" ++ "' directory is already exists.") :=
  existing_output_never_modified envAllDirs "in" "out" none rfl

/-- C8 (amended): a missing input directory is always fatal before the
group's own output directory is created, but how much output exists at
the abort depends on the variant: with no group name, listing the
missing input root raises before any output is created; with a group
name, the output root and the error log (with the group's header lines)
are created first, and the per-group input check then exits. -/
theorem missing_input_aborts :
    (∀ (env : Env) (ip op : String), env.listing ip = none →
      pymain env ip op none = ([.crashE], true)) ∧
    (∀ (env : Env) (ip op g : String),
      env.pathExists (joinPath ip g) = false → env.isdir op = false →
      pymain env ip op (some g)
        = ([.mkdirE op, .openFileE (joinPath op "error.txt"),
            .logWriteE ("Convert error logs of '" ++ g ++ "'\n"),
            .logWriteE (dashedLine ++ "\n"),
            .exitE ("Can't find '" ++ joinPath ip g ++ "' directory.")], true)) := by
  constructor
  · intro env ip op h
    simp [pymain, h]
  · intro env ip op g h1 h2
    simp [pymain, groupLoop, run, h1, h2, seqTr]

/-- Environment in which no path exists at all. -/
def env1 : Env where
  pathExists := fun _ => false
  isdir := fun _ => false
  listing := fun _ => none
  jsonOf := fun _ => none
  imgOf := fun _ => none

/-- Witness for C8 (amended), second part, at a concrete environment. -/
theorem missing_input_aborts_witness :
    pymain env1 "in" "out" (some "g")
      = ([.mkdirE "out", .openFileE (joinPath "out" "error.txt"),
          .logWriteE ("Convert error logs of '" ++ "g" ++ "'\n"),
          .logWriteE (dashedLine ++ "\n"),
          .exitE ("Can't find '" ++ joinPath "in" "g" ++ "' directory.")], true) :=
  missing_input_aborts.2 env1 "in" "out" "g" rfl rfl

/-- Counterexample to C8 as stated: with a group name and a missing input
directory, the run does exit with the `Can't find` error (last trace
entry), but an output directory — the output root — has already been
created (`mkdir "out"` is in the trace), so output directories do exist
at the time of the abort. -/
theorem missing_input_counterexample :
    (pymain env1 "in" "out" (some "g")).1.getLast?
      = some (.exitE "Can't find 'in/g' directory.") ∧
    Effect.mkdirE "out" ∈ (pymain env1 "in" "out" (some "g")).1 := by decide

end LabelmeConvert
